import Mathlib

/-!
Verification of the synthetic order generator in `src/oltp/populate_oltp.py`.

The generator is a seeded pseudo-random sequence producer.  The shallow
embedding below replaces every call to the random source by an explicit
parameter (a field of a draw structure) together with the range contract the
corresponding `rng.randint` / `rng.uniform` / `rng.choice` call guarantees.
Money values are embedded as exact rationals; Python's `round(x + 1e-12, nd)`
is modelled as floor rounding of `(x + eps) * 10^nd + 1/2` (round half up; the
epsilon makes the half-even versus half-up convention irrelevant to every
bound proved here, which only uses that the result is within `1/(2*10^nd)+eps`
of the argument and is monotone).  Timestamps are embedded as integers
counting seconds, so `timedelta(minutes=k)` becomes `60 * k`,
`timedelta(hours=h)` becomes `3600 * h` and `timedelta(days=d)` becomes
`86400 * d`.
-/

namespace FoodDelivery

/-- Module constant `SAFETY_BUFFER_HOURS = 8` of `populate_oltp.py`. -/
def SAFETY_BUFFER_HOURS : ℤ := 8

/-- Module constant `ORDERS_DAYS = 90` of `populate_oltp.py`. -/
def ORDERS_DAYS : ℤ := 90

/-- The epsilon `1e-12` that `qround` adds before rounding. -/
def eps : ℚ := 1 / 10 ^ 12

/-- Embedding of `qround(x, nd) = float(round(x + 1e-12, nd))`: round
`x + eps` to `nd` decimal digits. -/
def qround (x : ℚ) (nd : ℕ) : ℚ :=
  ((⌊(x + eps) * 10 ^ nd + 1 / 2⌋ : ℤ) : ℚ) / 10 ^ nd

theorem eps_pos : 0 < eps := by norm_num [eps]

theorem qround_mono {x y : ℚ} (nd : ℕ) (h : x ≤ y) : qround x nd ≤ qround y nd := by
  unfold qround
  have hp : (0 : ℚ) < 10 ^ nd := by positivity
  have h1 : (x + eps) * 10 ^ nd + 1 / 2 ≤ (y + eps) * 10 ^ nd + 1 / 2 := by
    have := mul_le_mul_of_nonneg_right (add_le_add_right h eps) (le_of_lt hp)
    linarith
  have h2 : (⌊(x + eps) * 10 ^ nd + 1 / 2⌋ : ℚ) ≤ (⌊(y + eps) * 10 ^ nd + 1 / 2⌋ : ℚ) := by
    exact_mod_cast Int.floor_mono h1
  exact div_le_div_of_nonneg_right h2 (le_of_lt hp)

theorem qround_nonneg {x : ℚ} (nd : ℕ) (h : 0 ≤ x) : 0 ≤ qround x nd := by
  unfold qround
  have hp : (0 : ℚ) < 10 ^ nd := by positivity
  have harg : (0 : ℚ) ≤ (x + eps) * 10 ^ nd + 1 / 2 := by
    have := mul_nonneg (by linarith [eps_pos] : (0:ℚ) ≤ x + eps) (le_of_lt hp)
    linarith
  have h2 : (0 : ℤ) ≤ ⌊(x + eps) * 10 ^ nd + 1 / 2⌋ := by
    exact Int.le_floor.mpr (by exact_mod_cast harg)
  exact div_nonneg (by exact_mod_cast h2) (le_of_lt hp)

theorem qround_le (x : ℚ) : qround x 2 ≤ x + eps + 1 / 200 := by
  unfold qround
  have h := Int.floor_le ((x + eps) * 10 ^ 2 + 1 / 2)
  linarith

theorem qround_gt (x : ℚ) : x - 1 / 200 < qround x 2 := by
  unfold qround
  have h := Int.lt_floor_add_one ((x + eps) * 10 ^ 2 + 1 / 2)
  have he := eps_pos
  linarith

theorem qround_one : qround 1 2 = 1 := by norm_num [qround, eps]

theorem qround_five : qround 5 2 = 5 := by norm_num [qround, eps]

/-- One order item draw of `populate_orders_related`: the drawn menu item id,
the quantity `rng.randint(1, 3)` and the raw price `rng.uniform(5.0, 35.0)`
before `qround`. -/
structure ItemDraw where
  menuItemId : ℕ
  qty : ℕ
  rawPrice : ℚ
  deriving DecidableEq

/-- The paid unit price: `unit_price = qround(rng.uniform(5.0, 35.0), 2)`. -/
def unitPrice (it : ItemDraw) : ℚ := qround it.rawPrice 2

/-- The line total: `line_total = qround(qty * unit_price, 2)`. -/
def lineTotal (it : ItemDraw) : ℚ := qround ((it.qty : ℚ) * unitPrice it) 2

/-- The financial draws of one iteration of the order loop: the 1 to 5 item
draws, the tax rate `rng.uniform(0.05, 0.12)`, the raw delivery fee
`rng.uniform(1.0, 8.0)` and the raw discount `rng.uniform(0.0, subtotal * 0.20)`. -/
structure FinDraw where
  items : List ItemDraw
  taxRate : ℚ
  rawFee : ℚ
  rawDiscount : ℚ
  deriving DecidableEq

/-- `subtotal = qround(sum of line totals, 2)`. -/
def subtotal (f : FinDraw) : ℚ := qround ((f.items.map lineTotal).sum) 2

/-- `tax = qround(subtotal * rng.uniform(0.05, 0.12), 2)`. -/
def tax (f : FinDraw) : ℚ := qround (subtotal f * f.taxRate) 2

/-- `delivery_fee = qround(rng.uniform(1.0, 8.0), 2)`. -/
def deliveryFee (f : FinDraw) : ℚ := qround f.rawFee 2

/-- `discount_cap = max(0.0, subtotal + tax + delivery_fee)`. -/
def discountCap (f : FinDraw) : ℚ := max 0 (subtotal f + tax f + deliveryFee f)

/-- `discount = qround(min(discount_cap, rng.uniform(0.0, subtotal * 0.20)), 2)`. -/
def discount (f : FinDraw) : ℚ := qround (min (discountCap f) f.rawDiscount) 2

/-- `total_amount = qround(subtotal + tax + delivery_fee - discount, 2)`. -/
def totalAmount (f : FinDraw) : ℚ :=
  qround (subtotal f + tax f + deliveryFee f - discount f) 2

/-- The range contract the random source guarantees for an item draw:
`rng.randint(1, 3)` for the quantity and `rng.uniform(5.0, 35.0)` for the raw
unit price. -/
abbrev ItemDraw.inRange (it : ItemDraw) : Prop :=
  1 ≤ it.qty ∧ it.qty ≤ 3 ∧ 5 ≤ it.rawPrice ∧ it.rawPrice ≤ 35

/-- The range contract for the financial draws of one order: 1 to 5 items,
each within range, tax rate in `[0.05, 0.12]`, raw fee in `[1, 8]` and raw
discount in `[0, subtotal * 0.20]` (the discount is drawn after `subtotal`
has been rounded). -/
abbrev FinDraw.inRange (f : FinDraw) : Prop :=
  f.items ≠ [] ∧ f.items.length ≤ 5 ∧ (∀ it ∈ f.items, it.inRange) ∧
  1 / 20 ≤ f.taxRate ∧ f.taxRate ≤ 3 / 25 ∧
  1 ≤ f.rawFee ∧ f.rawFee ≤ 8 ∧
  0 ≤ f.rawDiscount ∧ f.rawDiscount ≤ subtotal f * (1 / 5)

theorem lineTotal_nonneg {it : ItemDraw} (h : it.inRange) : 0 ≤ lineTotal it := by
  have h5 : (0 : ℚ) ≤ it.rawPrice := by
    have := h.2.2.1
    linarith
  have hup : 0 ≤ unitPrice it := qround_nonneg 2 h5
  have : (0 : ℚ) ≤ (it.qty : ℚ) * unitPrice it :=
    mul_nonneg (by positivity) hup
  exact qround_nonneg 2 this

theorem subtotal_nonneg {f : FinDraw} (h : f.inRange) : 0 ≤ subtotal f := by
  have hsum : (0 : ℚ) ≤ (f.items.map lineTotal).sum := by
    apply List.sum_nonneg
    intro x hx
    rcases List.mem_map.mp hx with ⟨it, hit, rfl⟩
    exact lineTotal_nonneg (h.2.2.1 it hit)
  exact qround_nonneg 2 hsum

theorem tax_nonneg {f : FinDraw} (h : f.inRange) : 0 ≤ tax f := by
  apply qround_nonneg
  apply mul_nonneg (subtotal_nonneg h)
  have := h.2.2.2.1
  linarith

theorem deliveryFee_ge_one {f : FinDraw} (h : f.inRange) : 1 ≤ deliveryFee f := by
  have := qround_mono 2 h.2.2.2.2.2.1
  rw [qround_one] at this
  exact this

theorem discount_le_bound {f : FinDraw} (h : f.inRange) :
    discount f ≤ subtotal f * (1 / 5) + 1 / 200 + eps := by
  have h1 : min (discountCap f) f.rawDiscount ≤ f.rawDiscount := min_le_right _ _
  have h2 : discount f ≤ qround f.rawDiscount 2 := qround_mono 2 h1
  have h3 := qround_le f.rawDiscount
  have h4 := h.2.2.2.2.2.2.2.2
  linarith

theorem totalAmount_ge_half {f : FinDraw} (h : f.inRange) : 1 / 2 ≤ totalAmount f := by
  have hs := subtotal_nonneg h
  have ht := tax_nonneg h
  have hf := deliveryFee_ge_one h
  have hd := discount_le_bound h
  have hpre : 1 / 2 + 1 / 200 ≤ subtotal f + tax f + deliveryFee f - discount f := by
    have he : eps ≤ 1 / 200 := by norm_num [eps]
    linarith
  have := qround_gt (subtotal f + tax f + deliveryFee f - discount f)
  unfold totalAmount
  linarith

/-- The clamp bound `latest_allowed = now - timedelta(minutes=1)` of the
timeline builders. -/
def latestAllowed (now : ℤ) : ℤ := now - 60

/-- The inner `clamp` of `build_order_timeline_delivered`:
`ts if ts <= latest_allowed else latest_allowed`. -/
def clamp (latest ts : ℤ) : ℤ := if ts ≤ latest then ts else latest

/-- The inner `ensure_after` of `build_order_timeline_delivered`:
`clamp(prev + timedelta(minutes=1)) if ts <= prev else ts`. -/
def ensureAfter (latest ts prev : ℤ) : ℤ :=
  if ts ≤ prev then clamp latest (prev + 60) else ts

/-- The eight `rng.randint` minute deltas drawn by
`build_order_timeline_delivered`, in drawing order. -/
structure DeliveredDeltas where
  dAccept : ℤ
  dPrep : ℤ
  dReady : ℤ
  dAssign : ℤ
  dPickupEta : ℤ
  dPickedUp : ℤ
  dDropoffEta : ℤ
  dDelivered : ℤ
  deriving DecidableEq

/-- The randint range contract for the delivered-timeline deltas:
`randint(1,6)`, `randint(2,10)`, `randint(5,20)`, `randint(1,8)`,
`randint(10,25)`, `randint(-3,3)`, `randint(10,35)`, `randint(-3,3)`. -/
abbrev DeliveredDeltas.inRange (d : DeliveredDeltas) : Prop :=
  1 ≤ d.dAccept ∧ d.dAccept ≤ 6 ∧
  2 ≤ d.dPrep ∧ d.dPrep ≤ 10 ∧
  5 ≤ d.dReady ∧ d.dReady ≤ 20 ∧
  1 ≤ d.dAssign ∧ d.dAssign ≤ 8 ∧
  10 ≤ d.dPickupEta ∧ d.dPickupEta ≤ 25 ∧
  -3 ≤ d.dPickedUp ∧ d.dPickedUp ≤ 3 ∧
  10 ≤ d.dDropoffEta ∧ d.dDropoffEta ≤ 35 ∧
  -3 ≤ d.dDelivered ∧ d.dDelivered ≤ 3

/-- Raw (pre-clamp) timestamp `accepted_ts = placed_ts + minutes(randint(1,6))`. -/
def acceptedRaw (d : DeliveredDeltas) (placed : ℤ) : ℤ := placed + 60 * d.dAccept

/-- Raw `prep_start_ts = accepted_ts + minutes(randint(2,10))`. -/
def prepStartRaw (d : DeliveredDeltas) (placed : ℤ) : ℤ :=
  acceptedRaw d placed + 60 * d.dPrep

/-- Raw `ready_ts = prep_start_ts + minutes(randint(5,20))`. -/
def readyRaw (d : DeliveredDeltas) (placed : ℤ) : ℤ :=
  prepStartRaw d placed + 60 * d.dReady

/-- Raw `assigned_at = ready_ts + minutes(randint(1,8))`. -/
def assignedRaw (d : DeliveredDeltas) (placed : ℤ) : ℤ :=
  readyRaw d placed + 60 * d.dAssign

/-- Raw `pickup_eta = assigned_at + minutes(randint(10,25))`. -/
def pickupEtaRaw (d : DeliveredDeltas) (placed : ℤ) : ℤ :=
  assignedRaw d placed + 60 * d.dPickupEta

/-- Raw `picked_up_ts = pickup_eta + minutes(randint(-3,3))`. -/
def pickedUpRaw (d : DeliveredDeltas) (placed : ℤ) : ℤ :=
  pickupEtaRaw d placed + 60 * d.dPickedUp

/-- Raw `dropoff_eta = pickup_eta + minutes(randint(10,35))`. -/
def dropoffEtaRaw (d : DeliveredDeltas) (placed : ℤ) : ℤ :=
  pickupEtaRaw d placed + 60 * d.dDropoffEta

/-- Raw `delivered_ts = dropoff_eta + minutes(randint(-3,3))`. -/
def deliveredRaw (d : DeliveredDeltas) (placed : ℤ) : ℤ :=
  dropoffEtaRaw d placed + 60 * d.dDelivered

/-- `accepted_ts` after the clamp pass and the `ensure_after` repair pass
(repaired against `placed_ts`, which is never clamped). -/
def acceptedFix (d : DeliveredDeltas) (placed now : ℤ) : ℤ :=
  ensureAfter (latestAllowed now) (clamp (latestAllowed now) (acceptedRaw d placed)) placed

/-- `prep_start_ts` after clamp and repair. -/
def prepStartFix (d : DeliveredDeltas) (placed now : ℤ) : ℤ :=
  ensureAfter (latestAllowed now) (clamp (latestAllowed now) (prepStartRaw d placed))
    (acceptedFix d placed now)

/-- `ready_ts` after clamp and repair. -/
def readyFix (d : DeliveredDeltas) (placed now : ℤ) : ℤ :=
  ensureAfter (latestAllowed now) (clamp (latestAllowed now) (readyRaw d placed))
    (prepStartFix d placed now)

/-- `assigned_at` after clamp and repair. -/
def assignedFix (d : DeliveredDeltas) (placed now : ℤ) : ℤ :=
  ensureAfter (latestAllowed now) (clamp (latestAllowed now) (assignedRaw d placed))
    (readyFix d placed now)

/-- `pickup_eta` after clamp and repair. -/
def pickupEtaFix (d : DeliveredDeltas) (placed now : ℤ) : ℤ :=
  ensureAfter (latestAllowed now) (clamp (latestAllowed now) (pickupEtaRaw d placed))
    (assignedFix d placed now)

/-- `picked_up_ts` after clamp and repair. -/
def pickedUpFix (d : DeliveredDeltas) (placed now : ℤ) : ℤ :=
  ensureAfter (latestAllowed now) (clamp (latestAllowed now) (pickedUpRaw d placed))
    (pickupEtaFix d placed now)

/-- `dropoff_eta` after clamp and repair (repaired against `picked_up_ts`). -/
def dropoffEtaFix (d : DeliveredDeltas) (placed now : ℤ) : ℤ :=
  ensureAfter (latestAllowed now) (clamp (latestAllowed now) (dropoffEtaRaw d placed))
    (pickedUpFix d placed now)

/-- `delivered_ts` after clamp and repair. -/
def deliveredFix (d : DeliveredDeltas) (placed now : ℤ) : ℤ :=
  ensureAfter (latestAllowed now) (clamp (latestAllowed now) (deliveredRaw d placed))
    (dropoffEtaFix d placed now)

/-- The return value of `build_order_timeline_delivered`. -/
structure DeliveredTimeline where
  events : List (ℤ × String × String)
  assigned_at : ℤ
  pickup_eta : ℤ
  dropoff_eta : ℤ
  delivered_ts : ℤ
  deriving DecidableEq

/-- Embedding of `build_order_timeline_delivered`: the six status events with
their clamped-then-repaired timestamps, plus the assignment timestamps. -/
def build_order_timeline_delivered (d : DeliveredDeltas) (placed now : ℤ) :
    DeliveredTimeline :=
  ⟨[(placed, "PLACED", "CUSTOMER"),
    (acceptedFix d placed now, "ACCEPTED", "RESTAURANT"),
    (prepStartFix d placed now, "PREP_START", "RESTAURANT"),
    (readyFix d placed now, "READY_FOR_PICKUP", "RESTAURANT"),
    (pickedUpFix d placed now, "PICKED_UP", "COURIER"),
    (deliveredFix d placed now, "DELIVERED", "SYSTEM")],
   assignedFix d placed now,
   pickupEtaFix d placed now,
   dropoffEtaFix d placed now,
   deliveredFix d placed now⟩

/-- `canceled_ts` of `build_order_timeline_canceled`: the raw
`placed + minutes(randint(2,30))`, clamped to `latest_allowed`, then bumped to
`placed + 1 minute` (clamped again) when not strictly after `placed`. -/
def canceledFix (cancelDelta placed now : ℤ) : ℤ :=
  let latest := latestAllowed now
  let c0 := placed + 60 * cancelDelta
  let c1 := if c0 ≤ latest then c0 else latest
  if c1 ≤ placed then (if placed + 60 ≤ latest then placed + 60 else latest) else c1

/-- The return value of `build_order_timeline_canceled`. -/
structure CanceledTimeline where
  events : List (ℤ × String × String)
  canceled_ts : ℤ
  deriving DecidableEq

/-- Embedding of `build_order_timeline_canceled`. -/
def build_order_timeline_canceled (cancelDelta placed now : ℤ) : CanceledTimeline :=
  ⟨[(placed, "PLACED", "CUSTOMER"),
    (canceledFix cancelDelta placed now, "CANCELED", "SYSTEM")],
   canceledFix cancelDelta placed now⟩

theorem ensureAfter_clamp_gt {latest prev : ℤ} (ts : ℤ) (h : prev + 60 ≤ latest) :
    prev < ensureAfter latest (clamp latest ts) prev := by
  unfold ensureAfter clamp
  split_ifs <;> omega

theorem ensureAfter_clamp_ub (latest ts prev : ℤ) :
    ensureAfter latest (clamp latest ts) prev ≤ ts ∨
    ensureAfter latest (clamp latest ts) prev ≤ prev + 60 := by
  unfold ensureAfter clamp
  split_ifs <;> omega

theorem ensureAfter_clamp_le_latest (latest ts prev : ℤ) :
    ensureAfter latest (clamp latest ts) prev ≤ latest := by
  unfold ensureAfter clamp
  split_ifs <;> omega

theorem canceledFix_le_latest (cancelDelta placed now : ℤ) :
    canceledFix cancelDelta placed now ≤ latestAllowed now := by
  simp only [canceledFix]
  split_ifs <;> omega

/-- C2: For every order placed within the configured window
(`placed_at <= now - SAFETY_BUFFER_HOURS`, true of every generated order),
the status-event timestamps produced by `build_order_timeline_delivered`
(PLACED, ACCEPTED, PREP_START, READY_FOR_PICKUP, PICKED_UP, DELIVERED) and by
`build_order_timeline_canceled` (PLACED, CANCELED) are strictly increasing
after the clamp-then-repair passes, for all deltas within their randint
ranges. -/
theorem timeline_events_strictly_increasing
    (d : DeliveredDeltas) (cancelDelta placed now : ℤ)
    (hd : d.inRange) (hca : 2 ≤ cancelDelta) (hcb : cancelDelta ≤ 30)
    (hp : placed ≤ now - SAFETY_BUFFER_HOURS * 3600) :
    List.Chain' (fun a b => a.1 < b.1)
      (build_order_timeline_delivered d placed now).events ∧
    List.Chain' (fun a b => a.1 < b.1)
      (build_order_timeline_canceled cancelDelta placed now).events := by
  obtain ⟨h1a, h1b, h2a, h2b, h3a, h3b, h4a, h4b, h5a, h5b, h6a, h6b, h7a, h7b,
    h8a, h8b⟩ := hd
  have hp' : placed ≤ now - 28800 := by
    simp only [SAFETY_BUFFER_HOURS] at hp
    omega
  have hL : latestAllowed now = now - 60 := rfl
  have hr1 : acceptedRaw d placed ≤ placed + 360 := by unfold acceptedRaw; omega
  have hr2 : prepStartRaw d placed ≤ placed + 960 := by
    unfold prepStartRaw acceptedRaw; omega
  have hr3 : readyRaw d placed ≤ placed + 2160 := by
    unfold readyRaw prepStartRaw acceptedRaw; omega
  have hr4 : assignedRaw d placed ≤ placed + 2640 := by
    unfold assignedRaw readyRaw prepStartRaw acceptedRaw; omega
  have hr5 : pickupEtaRaw d placed ≤ placed + 4140 := by
    unfold pickupEtaRaw assignedRaw readyRaw prepStartRaw acceptedRaw; omega
  have hr6 : pickedUpRaw d placed ≤ placed + 4320 := by
    unfold pickedUpRaw pickupEtaRaw assignedRaw readyRaw prepStartRaw acceptedRaw
    omega
  have hr7 : dropoffEtaRaw d placed ≤ placed + 6240 := by
    unfold dropoffEtaRaw pickupEtaRaw assignedRaw readyRaw prepStartRaw acceptedRaw
    omega
  have hr8 : deliveredRaw d placed ≤ placed + 6420 := by
    unfold deliveredRaw dropoffEtaRaw pickupEtaRaw assignedRaw readyRaw
      prepStartRaw acceptedRaw
    omega
  have s1 : placed < acceptedFix d placed now := by
    unfold acceptedFix
    exact ensureAfter_clamp_gt _ (by omega)
  have u1 : acceptedFix d placed now ≤ placed + 360 := by
    unfold acceptedFix
    rcases ensureAfter_clamp_ub (latestAllowed now) (acceptedRaw d placed) placed
      with h | h <;> omega
  have s2 : acceptedFix d placed now < prepStartFix d placed now := by
    unfold prepStartFix
    exact ensureAfter_clamp_gt _ (by omega)
  have u2 : prepStartFix d placed now ≤ placed + 960 := by
    unfold prepStartFix
    rcases ensureAfter_clamp_ub (latestAllowed now) (prepStartRaw d placed)
      (acceptedFix d placed now) with h | h <;> omega
  have s3 : prepStartFix d placed now < readyFix d placed now := by
    unfold readyFix
    exact ensureAfter_clamp_gt _ (by omega)
  have u3 : readyFix d placed now ≤ placed + 2160 := by
    unfold readyFix
    rcases ensureAfter_clamp_ub (latestAllowed now) (readyRaw d placed)
      (prepStartFix d placed now) with h | h <;> omega
  have s4 : readyFix d placed now < assignedFix d placed now := by
    unfold assignedFix
    exact ensureAfter_clamp_gt _ (by omega)
  have u4 : assignedFix d placed now ≤ placed + 2640 := by
    unfold assignedFix
    rcases ensureAfter_clamp_ub (latestAllowed now) (assignedRaw d placed)
      (readyFix d placed now) with h | h <;> omega
  have s5 : assignedFix d placed now < pickupEtaFix d placed now := by
    unfold pickupEtaFix
    exact ensureAfter_clamp_gt _ (by omega)
  have u5 : pickupEtaFix d placed now ≤ placed + 4140 := by
    unfold pickupEtaFix
    rcases ensureAfter_clamp_ub (latestAllowed now) (pickupEtaRaw d placed)
      (assignedFix d placed now) with h | h <;> omega
  have s6 : pickupEtaFix d placed now < pickedUpFix d placed now := by
    unfold pickedUpFix
    exact ensureAfter_clamp_gt _ (by omega)
  have u6 : pickedUpFix d placed now ≤ placed + 4320 := by
    unfold pickedUpFix
    rcases ensureAfter_clamp_ub (latestAllowed now) (pickedUpRaw d placed)
      (pickupEtaFix d placed now) with h | h <;> omega
  have s7 : pickedUpFix d placed now < dropoffEtaFix d placed now := by
    unfold dropoffEtaFix
    exact ensureAfter_clamp_gt _ (by omega)
  have u7 : dropoffEtaFix d placed now ≤ placed + 6240 := by
    unfold dropoffEtaFix
    rcases ensureAfter_clamp_ub (latestAllowed now) (dropoffEtaRaw d placed)
      (pickedUpFix d placed now) with h | h <;> omega
  have s8 : dropoffEtaFix d placed now < deliveredFix d placed now := by
    unfold deliveredFix
    exact ensureAfter_clamp_gt _ (by omega)
  have sc : placed < canceledFix cancelDelta placed now := by
    simp only [canceledFix, latestAllowed]
    split_ifs <;> omega
  refine ⟨?_, ?_⟩
  · simp only [build_order_timeline_delivered, List.chain'_cons,
      List.chain'_singleton]
    exact ⟨s1, s2, s3, by omega, by omega, trivial⟩
  · simp only [build_order_timeline_canceled, List.chain'_cons,
      List.chain'_singleton]
    exact ⟨sc, trivial⟩

/-- A concrete delivered-timeline draw with every delta inside its randint
range: 1, 2, 5, 1, 10, 0, 10, 0 minutes. -/
def exDeltas : DeliveredDeltas := ⟨1, 2, 5, 1, 10, 0, 10, 0⟩

/-- Witness for C2 at `placed = 0`, `now = 28800`, cancel delta 2. -/
theorem timeline_events_strictly_increasing_witness :
    exDeltas.inRange ∧ (2 : ℤ) ≤ 2 ∧ (2 : ℤ) ≤ 30 ∧
    (0 : ℤ) ≤ 28800 - SAFETY_BUFFER_HOURS * 3600 ∧
    (List.Chain' (fun a b => a.1 < b.1)
        (build_order_timeline_delivered exDeltas 0 28800).events ∧
      List.Chain' (fun a b => a.1 < b.1)
        (build_order_timeline_canceled 2 0 28800).events) :=
  ⟨by decide, by decide, by decide, by decide,
    timeline_events_strictly_increasing exDeltas 2 0 28800 (by decide) (by decide)
      (by decide) (by decide)⟩

/-- C3 counterexample: at `now = 28800` an order placed exactly at the window
end `now - SAFETY_BUFFER_HOURS` (so `placed = 0`) with in-range deltas gets a
final DELIVERED event at `t = 1800`, which is later than
`now - SAFETY_BUFFER_HOURS = 0`: the final event timestamp is not bounded by
the safety-buffer window end. -/
theorem final_event_exceeds_safety_buffer_cex :
    exDeltas.inRange ∧
    (0 : ℤ) ≤ 28800 - SAFETY_BUFFER_HOURS * 3600 ∧
    (build_order_timeline_delivered exDeltas 0 28800).events.getLast? =
      some (1800, "DELIVERED", "SYSTEM") ∧
    ¬ ((1800 : ℤ) ≤ 28800 - SAFETY_BUFFER_HOURS * 3600) := by
  decide

/-- C3 amended: the final status event (DELIVERED or CANCELED) of every
generated timeline is no later than `now` minus one minute (the clamp bound
`latest_allowed`); the safety buffer bounds only the PLACED timestamp. -/
theorem final_event_le_now_minus_one_minute
    (d : DeliveredDeltas) (cancelDelta placed now : ℤ) :
    (∃ t, (build_order_timeline_delivered d placed now).events.getLast? =
        some (t, "DELIVERED", "SYSTEM") ∧ t ≤ latestAllowed now) ∧
    (∃ t, (build_order_timeline_canceled cancelDelta placed now).events.getLast? =
        some (t, "CANCELED", "SYSTEM") ∧ t ≤ latestAllowed now) := by
  constructor
  · exact ⟨deliveredFix d placed now, rfl,
      by unfold deliveredFix; exact ensureAfter_clamp_le_latest _ _ _⟩
  · exact ⟨canceledFix cancelDelta placed now, rfl,
      canceledFix_le_latest cancelDelta placed now⟩

/-- C1: for every generated order (all draws within the ranges the random
source guarantees), the stored `total_amount` equals
`qround(subtotal + tax + delivery_fee - discount, 2)` and is non-negative. -/
theorem totalAmount_eq_qround_and_nonneg (f : FinDraw) (h : f.inRange) :
    totalAmount f = qround (subtotal f + tax f + deliveryFee f - discount f) 2 ∧
    0 ≤ totalAmount f := by
  refine ⟨rfl, ?_⟩
  have := totalAmount_ge_half h
  linarith

/-- A concrete in-range financial draw: one item of quantity 2 at raw price
10, tax rate 0.10, raw fee 2, raw discount 1. -/
def exFin : FinDraw := ⟨[⟨1, 2, 10⟩], 1 / 10, 2, 1⟩

theorem subtotal_exFin : subtotal exFin = 20 := by
  norm_num [subtotal, exFin, lineTotal, unitPrice, qround, eps]

theorem exFin_inRange : exFin.inRange := by
  refine ⟨by simp [exFin], by simp [exFin], ?_, by norm_num [exFin],
    by norm_num [exFin], by norm_num [exFin], by norm_num [exFin],
    by norm_num [exFin], ?_⟩
  · intro it hit
    simp only [exFin, List.mem_singleton] at hit
    subst hit
    refine ⟨by norm_num, by norm_num, by norm_num, by norm_num⟩
  · rw [subtotal_exFin]
    norm_num [exFin]

/-- Witness for C1 at the concrete draw `exFin`. -/
theorem totalAmount_eq_qround_and_nonneg_witness :
    exFin.inRange ∧
    (totalAmount exFin =
        qround (subtotal exFin + tax exFin + deliveryFee exFin - discount exFin) 2 ∧
      0 ≤ totalAmount exFin) :=
  ⟨exFin_inRange, totalAmount_eq_qround_and_nonneg exFin exFin_inRange⟩

/-- The C4 counterexample draw: one item of quantity 1 at raw price 9.98
(so `subtotal = 9.98` and 20 percent of it is 1.996), tax rate 0.05, raw fee
1, raw discount exactly 1.996. -/
def cexFin : FinDraw := ⟨[⟨1, 1, 499 / 50⟩], 1 / 20, 1, 499 / 250⟩

theorem subtotal_cexFin : subtotal cexFin = 499 / 50 := by
  norm_num [subtotal, cexFin, lineTotal, unitPrice, qround, eps]

theorem tax_cexFin : tax cexFin = 1 / 2 := by
  unfold tax
  rw [subtotal_cexFin]
  norm_num [cexFin, qround, eps]

theorem deliveryFee_cexFin : deliveryFee cexFin = 1 := by
  norm_num [deliveryFee, cexFin, qround, eps]

theorem discount_cexFin : discount cexFin = 2 := by
  unfold discount discountCap
  rw [subtotal_cexFin, tax_cexFin, deliveryFee_cexFin]
  norm_num [cexFin, min_def, max_def, qround, eps]

theorem cexFin_inRange : cexFin.inRange := by
  refine ⟨by simp [cexFin], by simp [cexFin], ?_, by norm_num [cexFin],
    by norm_num [cexFin], by norm_num [cexFin], by norm_num [cexFin],
    by norm_num [cexFin], ?_⟩
  · intro it hit
    simp only [cexFin, List.mem_singleton] at hit
    subst hit
    refine ⟨by norm_num, by norm_num, by norm_num, by norm_num⟩
  · rw [subtotal_cexFin]
    norm_num [cexFin]

/-- C4 counterexample: at the in-range draw `cexFin` the rounded discount is
2.00, which exceeds 20 percent of the subtotal (1.996): the claimed bound
`discount <= min(cap, 0.2 * subtotal)` fails after rounding. -/
theorem discount_exceeds_twenty_percent_cex :
    cexFin.inRange ∧ ¬ (discount cexFin ≤ subtotal cexFin * (1 / 5)) := by
  refine ⟨cexFin_inRange, ?_⟩
  rw [discount_cexFin, subtotal_cexFin]
  norm_num

/-- C4 amended: the discount never exceeds `subtotal + tax + delivery_fee`,
and it exceeds 20 percent of the subtotal by at most the rounding slack of
half a cent plus the stabilization epsilon. -/
theorem discount_within_amended_caps (f : FinDraw) (h : f.inRange) :
    discount f ≤ subtotal f + tax f + deliveryFee f ∧
    discount f ≤ subtotal f * (1 / 5) + 1 / 200 + eps := by
  have hd := discount_le_bound h
  have hs := subtotal_nonneg h
  have ht := tax_nonneg h
  have hf := deliveryFee_ge_one h
  have he : eps ≤ 1 / 200 := by norm_num [eps]
  exact ⟨by linarith, hd⟩

/-- Witness for the amended C4 at the concrete draw `exFin`. -/
theorem discount_within_amended_caps_witness :
    exFin.inRange ∧
    (discount exFin ≤ subtotal exFin + tax exFin + deliveryFee exFin ∧
      discount exFin ≤ subtotal exFin * (1 / 5) + 1 / 200 + eps) :=
  ⟨exFin_inRange, discount_within_amended_caps exFin exFin_inRange⟩

/-- The address-count distribution of `gen_customer_addresses`: the draw
`r = rng.random()` yields 1 address when `r < 0.70`, 2 when `r < 0.95`,
else 3. -/
def nAddrOf (r : ℚ) : ℕ := if r < 7 / 10 then 1 else if r < 19 / 20 then 2 else 3

/-- One yielded customer-address row, restricted to the columns the claims
constrain (`customer_id` and `is_default`); the remaining columns (label,
lines, city, state, country, postal code, coordinates, created timestamp) are
independent draws that do not feed the address count or the default flag. -/
structure AddrRow where
  customerId : ℕ
  isDefault : Bool
  deriving DecidableEq

/-- The per-customer body of the `gen_customer_addresses` loop: draw the
address count from `r`, draw `default_idx = rng.randrange(n_addr)` and yield
one row per index `j` with `is_default = (j == default_idx)`. -/
def gen_customer_addresses_for (customerId : ℕ) (r : ℚ) (defaultIdx : ℕ) :
    List AddrRow :=
  (List.range (nAddrOf r)).map (fun j => ⟨customerId, j == defaultIdx⟩)

theorem countP_range_beq (n k : ℕ) (h : k < n) :
    (List.range n).countP (fun j => j == k) = 1 := by
  induction n with
  | zero => omega
  | succ m ih =>
    rw [List.range_succ, List.countP_append]
    by_cases hk : k < m
    · rw [ih hk]
      have hone : List.countP (fun j => j == k) [m] = 0 := by
        have : (m == k) = false := by
          simp only [beq_eq_false_iff_ne]
          omega
        simp [List.countP_cons, this]
      omega
    · have hkm : k = m := by omega
      subst hkm
      have h0 : (List.range k).countP (fun j => j == k) = 0 := by
        apply List.countP_eq_zero.mpr
        intro a ha
        have : a < k := List.mem_range.mp ha
        simp only [beq_iff_eq]
        omega
      rw [h0]
      simp [List.countP_cons]

/-- C6: for every customer processed by `gen_customer_addresses`, the
generator yields between 1 and 3 rows for that customer and exactly one of
them carries `is_default = true` (the `randrange` contract gives
`default_idx < n_addr`). -/
theorem addresses_count_and_unique_default (customerId : ℕ) (r : ℚ)
    (defaultIdx : ℕ) (h : defaultIdx < nAddrOf r) :
    1 ≤ (gen_customer_addresses_for customerId r defaultIdx).length ∧
    (gen_customer_addresses_for customerId r defaultIdx).length ≤ 3 ∧
    ((gen_customer_addresses_for customerId r defaultIdx).filter
      (fun row => row.isDefault)).length = 1 := by
  have hlen : (gen_customer_addresses_for customerId r defaultIdx).length =
      nAddrOf r := by
    simp [gen_customer_addresses_for]
  have hn : 1 ≤ nAddrOf r ∧ nAddrOf r ≤ 3 := by
    unfold nAddrOf
    split_ifs <;> omega
  refine ⟨by omega, by omega, ?_⟩
  rw [← List.countP_eq_length_filter]
  unfold gen_customer_addresses_for
  rw [List.countP_map]
  have heq : ((fun row => AddrRow.isDefault row) ∘ fun j =>
      (⟨customerId, j == defaultIdx⟩ : AddrRow)) = fun j => j == defaultIdx := rfl
  rw [heq]
  exact countP_range_beq (nAddrOf r) defaultIdx h

/-- Witness for C6 at customer 1, draw `r = 1/2` (one address), default
index 0. -/
theorem addresses_count_and_unique_default_witness :
    0 < nAddrOf (1 / 2) ∧
    (1 ≤ (gen_customer_addresses_for 1 (1 / 2) 0).length ∧
      (gen_customer_addresses_for 1 (1 / 2) 0).length ≤ 3 ∧
      ((gen_customer_addresses_for 1 (1 / 2) 0).filter
        (fun row => row.isDefault)).length = 1) := by
  have h : 0 < nAddrOf (1 / 2) := by norm_num [nAddrOf]
  exact ⟨h, addresses_count_and_unique_default 1 (1 / 2) 0 h⟩

/-- The uniqueness key of an outlet row: `(brand_id, outlet_name, city,
delivery_zone)`. -/
abbrev OutletKey := ℕ × String × String × String

/-- One yielded restaurant-outlet row. -/
structure OutletRow where
  brandId : ℕ
  outletName : String
  city : String
  zone : String
  addressLine1 : String
  postalCode : String
  isActive : Bool
  createdAt : ℤ
  deriving DecidableEq

/-- The key tuple of an outlet row. -/
def outletKey (o : OutletRow) : OutletKey := (o.brandId, o.outletName, o.city, o.zone)

/-- The draws of one iteration of the `gen_outlets` loop.  `nameCandidates`
is the stream of names the loop would draw: the head is the initial
`outlet_name` draw and the tail the successive retry draws of the
regenerate-until-unique loop (a finite prefix of the infinite stream; the
embedding reports failure when it is exhausted, which models
non-termination of the unbounded retry loop). -/
structure OutletDraw where
  brandId : ℕ
  city : String
  zone : String
  nameCandidates : List String
  addressLine1 : String
  postalCode : String
  isActive : Bool
  createdAt : ℤ
  deriving DecidableEq

/-- The retry loop of `gen_outlets`: keep drawing names until the key
`(brand_id, outlet_name, city, delivery_zone)` is not in `used_keys`. -/
def findFreshName (used : List OutletKey) (brandId : ℕ) (city zone : String) :
    List String → Option String
  | [] => none
  | n :: rest =>
    if (brandId, n, city, zone) ∈ used then findFreshName used brandId city zone rest
    else some n

/-- The `gen_outlets` loop threading the `used_keys` set. -/
def gen_outlets_aux (used : List OutletKey) :
    List OutletDraw → Option (List OutletRow)
  | [] => some []
  | d :: rest =>
    match findFreshName used d.brandId d.city d.zone d.nameCandidates with
    | none => none
    | some n =>
      match gen_outlets_aux ((d.brandId, n, d.city, d.zone) :: used) rest with
      | none => none
      | some rows =>
        some (⟨d.brandId, n, d.city, d.zone, d.addressLine1, d.postalCode,
          d.isActive, d.createdAt⟩ :: rows)

/-- Embedding of `gen_outlets`, starting from an empty `used_keys` set. -/
def gen_outlets (draws : List OutletDraw) : Option (List OutletRow) :=
  gen_outlets_aux [] draws

theorem findFreshName_spec (used : List OutletKey) (brandId : ℕ)
    (city zone : String) :
    ∀ cands n, findFreshName used brandId city zone cands = some n →
      (brandId, n, city, zone) ∉ used := by
  intro cands
  induction cands with
  | nil =>
    intro n h
    rw [findFreshName] at h
    exact Option.noConfusion h
  | cons c rest ih =>
    intro n h
    rw [findFreshName] at h
    split_ifs at h with hmem
    · exact ih n h
    · obtain rfl : c = n := Option.some.inj h
      exact hmem

theorem gen_outlets_aux_spec :
    ∀ (draws : List OutletDraw) (used : List OutletKey) (rows : List OutletRow),
      gen_outlets_aux used draws = some rows →
      (∀ row ∈ rows, outletKey row ∉ used) ∧
      rows.Pairwise (fun a b => outletKey a ≠ outletKey b) := by
  intro draws
  induction draws with
  | nil =>
    intro used rows h
    simp only [gen_outlets_aux] at h
    obtain rfl : ([] : List OutletRow) = rows := Option.some.inj h
    simp
  | cons d rest ih =>
    intro used rows h
    rw [gen_outlets_aux] at h
    split at h
    next => exact Option.noConfusion h
    next n hf =>
      split at h
      next => exact Option.noConfusion h
      next rows' hg =>
        obtain rfl := Option.some.inj h
        obtain ⟨hmem, hpair⟩ := ih _ _ hg
        have hnew : (d.brandId, n, d.city, d.zone) ∉ used :=
          findFreshName_spec used d.brandId d.city d.zone d.nameCandidates n hf
        constructor
        · intro row hrow
          rcases List.mem_cons.mp hrow with rfl | hrow'
          · exact hnew
          · intro hku
            exact hmem row hrow' (List.mem_cons_of_mem _ hku)
        · refine List.Pairwise.cons ?_ hpair
          intro b hb
          intro hkeq
          have := hmem b hb
          rw [← hkeq] at this
          exact this (List.mem_cons_self _ _)

/-- C7: whenever `gen_outlets` terminates (every retry loop found a fresh
name), the key tuples `(brand_id, outlet_name, city, delivery_zone)` of the
yielded outlet rows are pairwise distinct. -/
theorem outlet_keys_pairwise_distinct (draws : List OutletDraw)
    (rows : List OutletRow) (h : gen_outlets draws = some rows) :
    rows.Pairwise (fun a b => outletKey a ≠ outletKey b) :=
  (gen_outlets_aux_spec draws [] rows h).2

/-- Two concrete outlet draws whose second draw collides on its first name
candidate and succeeds on retry. -/
def exOutletDraws : List OutletDraw :=
  [⟨1, "Sydney", "Z1", ["Outlet 7"], "1 Main Rd", "2000", true, 0⟩,
   ⟨1, "Sydney", "Z1", ["Outlet 7", "Outlet 9"], "2 Main Rd", "2000", true, 0⟩]

/-- The rows `gen_outlets` yields for `exOutletDraws`. -/
def exOutletRows : List OutletRow :=
  [⟨1, "Outlet 7", "Sydney", "Z1", "1 Main Rd", "2000", true, 0⟩,
   ⟨1, "Outlet 9", "Sydney", "Z1", "2 Main Rd", "2000", true, 0⟩]

/-- Witness for C7 at the concrete draws `exOutletDraws`. -/
theorem outlet_keys_pairwise_distinct_witness :
    gen_outlets exOutletDraws = some exOutletRows ∧
    exOutletRows.Pairwise (fun a b => outletKey a ≠ outletKey b) :=
  ⟨by decide, outlet_keys_pairwise_distinct exOutletDraws exOutletRows (by decide)⟩

/-- `currency_for_country` of `populate_orders_related`: AU addresses map to
AUD, everything else to INR. -/
def currency_for_country (audId inrId : ℕ) (country : String) : ℕ :=
  if country = "Australia" then audId else inrId

/-- The draws of one iteration of the order loop of
`populate_orders_related`, in drawing order.  Branch-specific draws
(delivered timeline, refund, rating, cancellation) are always present as
fields but only consumed by the branch the code takes. -/
structure OrderDraw where
  customerId : ℕ
  addressId : ℕ
  addrCountry : String
  restaurantId : ℕ
  placedOffset : ℤ
  fin : FinDraw
  paymentMethod : String
  delivered : Bool
  deliv : DeliveredDeltas
  courierId : ℕ
  refundRoll : Bool
  refundDelayMin : ℤ
  refundFrac : ℚ
  refundReason : String
  refundStatusRoll : Bool
  ratingRoll : Bool
  ratingDelayMin : ℤ
  restaurantRating : ℕ
  courierRating : Option ℕ
  cancelDelta : ℤ
  canceledPayment : String
  deriving DecidableEq

/-- One row appended to `orders_rows`. -/
structure OrderRow where
  orderId : ℕ
  customerId : ℕ
  addressId : ℕ
  restaurantId : ℕ
  placedAt : ℤ
  subtotal : ℚ
  tax : ℚ
  deliveryFee : ℚ
  discount : ℚ
  totalAmount : ℚ
  paymentMethod : String
  paymentStatus : String
  currencyId : ℕ
  deriving DecidableEq

/-- One row appended to `refunds_rows`. -/
structure RefundRow where
  orderId : ℕ
  refundTs : ℤ
  reason : String
  amount : ℚ
  currencyId : ℕ
  deriving DecidableEq

/-- One row appended to `delivery_assignments`. -/
structure AssignmentRow where
  orderId : ℕ
  courierId : ℕ
  assignedAt : ℤ
  pickupEta : ℤ
  dropoffEta : ℤ
  deriving DecidableEq

/-- One row appended to `ratings_rows`. -/
structure RatingRow where
  orderId : ℕ
  customerId : ℕ
  restaurantRating : ℕ
  courierRating : Option ℕ
  createdAt : ℤ
  deriving DecidableEq

/-- Everything one iteration of the order loop appends to the accumulation
buffers. -/
structure OrderResult where
  order : OrderRow
  items : List (ℕ × ℕ × ℕ × ℚ × ℚ)
  events : List (ℤ × String × String)
  assignment : Option AssignmentRow
  refund : Option RefundRow
  rating : Option RatingRow
  deriving DecidableEq

/-- The body of one iteration of the order loop of
`populate_orders_related`: compute the financials, decide delivered versus
canceled with the 92 percent coin, build the matching timeline, and emit the
order row together with its dependent rows. -/
def genOrder (audId inrId : ℕ) (startTs now : ℤ) (orderId : ℕ)
    (d : OrderDraw) : OrderResult :=
  let placed := startTs + d.placedOffset
  let currencyId := currency_for_country audId inrId d.addrCountry
  let itemsRows := d.fin.items.map
    (fun it => (orderId, it.menuItemId, it.qty, unitPrice it, lineTotal it))
  if d.delivered then
    let tl := build_order_timeline_delivered d.deliv placed now
    let refundRow : Option RefundRow :=
      if d.refundRoll then
        some ⟨orderId, tl.delivered_ts + 60 * d.refundDelayMin, d.refundReason,
          qround (totalAmount d.fin * d.refundFrac) 2, currencyId⟩
      else none
    let paymentStatus := if d.refundRoll && d.refundStatusRoll then ("REFUNDED")
      else ("PAID")
    let ratingRow : Option RatingRow :=
      if d.ratingRoll then
        some ⟨orderId, d.customerId, d.restaurantRating, d.courierRating,
          tl.delivered_ts + 60 * d.ratingDelayMin⟩
      else none
    ⟨⟨orderId, d.customerId, d.addressId, d.restaurantId, placed,
      subtotal d.fin, tax d.fin, deliveryFee d.fin, discount d.fin,
      totalAmount d.fin, d.paymentMethod, paymentStatus, currencyId⟩,
     itemsRows, tl.events,
     some ⟨orderId, d.courierId, tl.assigned_at, tl.pickup_eta, tl.dropoff_eta⟩,
     refundRow, ratingRow⟩
  else
    let tl := build_order_timeline_canceled d.cancelDelta placed now
    ⟨⟨orderId, d.customerId, d.addressId, d.restaurantId, placed,
      subtotal d.fin, tax d.fin, deliveryFee d.fin, discount d.fin,
      totalAmount d.fin, d.paymentMethod, d.canceledPayment, currencyId⟩,
     itemsRows, tl.events, none, none, none⟩

/-- Embedding of the pure skeleton of `populate_orders_related`: compute the
order window from `now`, the window constants and the safety buffer, raise
(`Except.error`, mirroring the `raise ValueError`) when the window end is not
after its start, and otherwise generate one order per draw with sequential
ids above `base_order_id`. -/
def populate_orders_related (ordersDays safetyHours : ℤ) (audId inrId : ℕ)
    (now : ℤ) (baseOrderId : ℕ) (draws : List OrderDraw) :
    Except String (List OrderResult) :=
  let startTs := now - ordersDays * 86400
  let endTs := now - safetyHours * 3600
  if endTs ≤ startTs then
    Except.error ("Invalid time window: end_ts must be > start_ts.")
  else
    Except.ok (draws.enum.map
      (fun p => genOrder audId inrId startTs now (baseOrderId + p.1 + 1) p.2))

theorem refund_amount_le_total {f : FinDraw} (h : f.inRange) {u : ℚ}
    (hu1 : 1 / 20 ≤ u) (hu2 : u ≤ 4 / 5) :
    qround (totalAmount f * u) 2 ≤ totalAmount f := by
  have ht := totalAmount_ge_half h
  have h1 : totalAmount f * u ≤ totalAmount f * (4 / 5) :=
    mul_le_mul_of_nonneg_left hu2 (by linarith)
  have h2 := qround_mono 2 h1
  have h3 := qround_le (totalAmount f * (4 / 5))
  have he : eps ≤ 1 / 200 := by norm_num [eps]
  nlinarith

/-- C5: a refund row is generated only in the delivered branch; its
timestamp is strictly after the DELIVERED event timestamp and its amount is
at most the order's `total_amount`. -/
theorem refund_after_delivery_and_capped (audId inrId : ℕ) (startTs now : ℤ)
    (orderId : ℕ) (d : OrderDraw) (r : RefundRow)
    (hfin : d.fin.inRange) (hdelay : 5 ≤ d.refundDelayMin)
    (hfa : 1 / 20 ≤ d.refundFrac) (hfb : d.refundFrac ≤ 4 / 5)
    (hr : (genOrder audId inrId startTs now orderId d).refund = some r) :
    d.delivered = true ∧
    ∃ pre t, (genOrder audId inrId startTs now orderId d).events =
        pre ++ [(t, "DELIVERED", "SYSTEM")] ∧
      t < r.refundTs ∧
      r.amount ≤ (genOrder audId inrId startTs now orderId d).order.totalAmount := by
  by_cases hdel : d.delivered
  · refine ⟨hdel, ?_⟩
    simp only [genOrder, hdel, if_true] at hr ⊢
    by_cases hroll : d.refundRoll
    · simp only [hroll, if_true] at hr
      obtain rfl := Option.some.inj hr
      refine ⟨[((startTs + d.placedOffset), "PLACED", "CUSTOMER"),
        (acceptedFix d.deliv (startTs + d.placedOffset) now, "ACCEPTED", "RESTAURANT"),
        (prepStartFix d.deliv (startTs + d.placedOffset) now, "PREP_START", "RESTAURANT"),
        (readyFix d.deliv (startTs + d.placedOffset) now, "READY_FOR_PICKUP", "RESTAURANT"),
        (pickedUpFix d.deliv (startTs + d.placedOffset) now, "PICKED_UP", "COURIER")],
        deliveredFix d.deliv (startTs + d.placedOffset) now, rfl, by
          simp only [build_order_timeline_delivered]
          omega, ?_⟩
      exact refund_amount_le_total hfin hfa hfb
    · simp only [hroll, if_false] at hr
      exact Option.noConfusion hr
  · simp only [genOrder, hdel, if_false] at hr
    exact Option.noConfusion hr

/-- C8: `populate_orders_related` raises exactly when the computed window end
`now - SAFETY_BUFFER_HOURS` is not after the window start `now - ORDERS_DAYS`
(with the window constants taken as parameters), and the raise happens before
any order row is produced: the error branch carries no rows. -/
theorem orders_window_validation_iff (ordersDays safetyHours : ℤ)
    (audId inrId : ℕ) (now : ℤ) (baseOrderId : ℕ) (draws : List OrderDraw) :
    (populate_orders_related ordersDays safetyHours audId inrId now baseOrderId
        draws =
      Except.error ("Invalid time window: end_ts must be > start_ts.")) ↔
    now - safetyHours * 3600 ≤ now - ordersDays * 86400 := by
  simp only [populate_orders_related]
  split_ifs with h
  · exact iff_of_true rfl h
  · exact iff_of_false (by simp) h

/-- C9: a generated refund row is denominated in its order's currency: both
ids come from `currency_for_country` applied to the same delivery-address
country. -/
theorem refund_currency_eq_order_currency (audId inrId : ℕ) (startTs now : ℤ)
    (orderId : ℕ) (d : OrderDraw) (r : RefundRow)
    (hr : (genOrder audId inrId startTs now orderId d).refund = some r) :
    r.currencyId = (genOrder audId inrId startTs now orderId d).order.currencyId := by
  by_cases hdel : d.delivered
  · simp only [genOrder, hdel, if_true] at hr ⊢
    by_cases hroll : d.refundRoll
    · simp only [hroll, if_true] at hr
      obtain rfl := Option.some.inj hr
      rfl
    · simp only [hroll, if_false] at hr
      exact Option.noConfusion hr
  · simp only [genOrder, hdel, if_false] at hr
    exact Option.noConfusion hr

/-- C10: payment status is determined by the order's outcome: a delivered
order is PAID or REFUNDED, REFUNDED only when a refund row was generated; a
canceled order is FAILED or PENDING (the `rng.choice` contract) and never
PAID or REFUNDED. -/
theorem payment_status_matches_outcome (audId inrId : ℕ) (startTs now : ℤ)
    (orderId : ℕ) (d : OrderDraw)
    (hc : d.canceledPayment = "FAILED" ∨ d.canceledPayment = "PENDING") :
    (d.delivered = true →
      ((genOrder audId inrId startTs now orderId d).order.paymentStatus = "PAID" ∨
        (genOrder audId inrId startTs now orderId d).order.paymentStatus = "REFUNDED") ∧
      ((genOrder audId inrId startTs now orderId d).order.paymentStatus = "REFUNDED" →
        (genOrder audId inrId startTs now orderId d).refund ≠ none)) ∧
    (d.delivered = false →
      ((genOrder audId inrId startTs now orderId d).order.paymentStatus = "FAILED" ∨
        (genOrder audId inrId startTs now orderId d).order.paymentStatus = "PENDING") ∧
      (genOrder audId inrId startTs now orderId d).order.paymentStatus ≠ "PAID" ∧
      (genOrder audId inrId startTs now orderId d).order.paymentStatus ≠ "REFUNDED") := by
  constructor
  · intro hdel
    simp only [genOrder, hdel, if_true]
    by_cases hroll : d.refundRoll
    · by_cases hstat : d.refundStatusRoll
      · simp [hroll, hstat]
      · simp [hroll, hstat]
    · simp [hroll]
  · intro hdel
    have hdel' : d.delivered = false := hdel
    simp only [genOrder, hdel', Bool.false_eq_true, if_false]
    rcases hc with h | h <;> rw [h] <;> refine ⟨by simp, by decide, by decide⟩

theorem tax_exFin : tax exFin = 2 := by
  unfold tax
  rw [subtotal_exFin]
  norm_num [exFin, qround, eps]

theorem deliveryFee_exFin : deliveryFee exFin = 2 := by
  norm_num [deliveryFee, exFin, qround, eps]

theorem discount_exFin : discount exFin = 1 := by
  unfold discount discountCap
  rw [subtotal_exFin, tax_exFin, deliveryFee_exFin]
  norm_num [exFin, min_def, max_def, qround, eps]

theorem totalAmount_exFin : totalAmount exFin = 23 := by
  unfold totalAmount
  rw [subtotal_exFin, tax_exFin, deliveryFee_exFin, discount_exFin]
  norm_num [qround, eps]

/-- A concrete delivered order draw with a refund: country Australia, the
in-range financial draw `exFin`, the in-range timeline deltas `exDeltas`,
refund delay 5 minutes and refund fraction one half. -/
def exOrderDraw : OrderDraw :=
  ⟨1, 1, "Australia", 1, 0, exFin, "CARD", true, exDeltas, 1, true, 5, 1 / 2,
   "OTHER", true, false, 2, 5, none, 2, "FAILED"⟩

/-- The refund row `genOrder` emits for `exOrderDraw` at `startTs = 0`,
`now = 28800`, order id 1 with AUD id 10 and INR id 20. -/
def exRefundRow : RefundRow := ⟨1, 2100, "OTHER", 23 / 2, 10⟩

theorem genOrder_ex_refund :
    (genOrder 10 20 0 28800 1 exOrderDraw).refund = some exRefundRow := by
  have h1 : (build_order_timeline_delivered exDeltas 0 28800).delivered_ts = 1800 := by
    decide
  have h2 : qround (totalAmount exFin * 2⁻¹) 2 = 23 / 2 := by
    rw [totalAmount_exFin]
    norm_num [qround, eps]
  simp [genOrder, exOrderDraw, exRefundRow, currency_for_country, h1, h2]

/-- Witness for C5 at the concrete draw `exOrderDraw`. -/
theorem refund_after_delivery_and_capped_witness :
    exOrderDraw.fin.inRange ∧ (5 : ℤ) ≤ exOrderDraw.refundDelayMin ∧
    (1 / 20 : ℚ) ≤ exOrderDraw.refundFrac ∧ exOrderDraw.refundFrac ≤ 4 / 5 ∧
    (genOrder 10 20 0 28800 1 exOrderDraw).refund = some exRefundRow ∧
    (exOrderDraw.delivered = true ∧
      ∃ pre t, (genOrder 10 20 0 28800 1 exOrderDraw).events =
          pre ++ [(t, "DELIVERED", "SYSTEM")] ∧
        t < exRefundRow.refundTs ∧
        exRefundRow.amount ≤
          (genOrder 10 20 0 28800 1 exOrderDraw).order.totalAmount) := by
  have hfin : exOrderDraw.fin.inRange := exFin_inRange
  refine ⟨hfin, by norm_num [exOrderDraw], by norm_num [exOrderDraw],
    by norm_num [exOrderDraw], genOrder_ex_refund, ?_⟩
  exact refund_after_delivery_and_capped 10 20 0 28800 1 exOrderDraw exRefundRow
    hfin (by norm_num [exOrderDraw]) (by norm_num [exOrderDraw])
    (by norm_num [exOrderDraw]) genOrder_ex_refund

/-- Witness for C9 at the concrete draw `exOrderDraw`. -/
theorem refund_currency_eq_order_currency_witness :
    (genOrder 10 20 0 28800 1 exOrderDraw).refund = some exRefundRow ∧
    exRefundRow.currencyId =
      (genOrder 10 20 0 28800 1 exOrderDraw).order.currencyId :=
  ⟨genOrder_ex_refund,
    refund_currency_eq_order_currency 10 20 0 28800 1 exOrderDraw exRefundRow
      genOrder_ex_refund⟩

/-- Witness for C10 at the concrete draw `exOrderDraw`. -/
theorem payment_status_matches_outcome_witness :
    (exOrderDraw.canceledPayment = "FAILED" ∨
      exOrderDraw.canceledPayment = "PENDING") ∧
    ((exOrderDraw.delivered = true →
      ((genOrder 10 20 0 28800 1 exOrderDraw).order.paymentStatus = "PAID" ∨
        (genOrder 10 20 0 28800 1 exOrderDraw).order.paymentStatus = "REFUNDED") ∧
      ((genOrder 10 20 0 28800 1 exOrderDraw).order.paymentStatus = "REFUNDED" →
        (genOrder 10 20 0 28800 1 exOrderDraw).refund ≠ none)) ∧
    (exOrderDraw.delivered = false →
      ((genOrder 10 20 0 28800 1 exOrderDraw).order.paymentStatus = "FAILED" ∨
        (genOrder 10 20 0 28800 1 exOrderDraw).order.paymentStatus = "PENDING") ∧
      (genOrder 10 20 0 28800 1 exOrderDraw).order.paymentStatus ≠ "PAID" ∧
      (genOrder 10 20 0 28800 1 exOrderDraw).order.paymentStatus ≠ "REFUNDED")) :=
  ⟨Or.inl (by decide),
    payment_status_matches_outcome 10 20 0 28800 1 exOrderDraw (Or.inl (by decide))⟩

end FoodDelivery
